import Mathlib

set_option maxHeartbeats 1000000

/-!
Verification development for the hex-engine 2D game engine.

Part 1 embeds the `Point` class (src/unnamed/part_000) over the reals: the
accessors `magnitude` and `angle`, the setters (the TypeScript `set magnitude` /
`set angle` accessors), and `normalize`.  JavaScript's `Math.atan2(y, x)` is the
argument of the complex number `x + y*I`; `Math.sqrt`, `Math.cos`, `Math.sin`
become their real counterparts.

Part 2 embeds the same `normalize` path over a small IEEE-style carrier
(`JsFloat`) that tracks `NaN` and the infinities, for the claims about the
behaviour of `normalize` on a zero-magnitude point (where JavaScript produces
`NaN` via `0 / 0`).

Part 3 embeds the geometry and event pipeline of
src/packages/2d/src/Components/LowLevelMouse.ts over ℚ: `translatePos`, the
button decoding of `updateEvent`, the per-class pending slots, the raw-event
handlers, and the per-update flush.  Listeners are modelled as small syntactic
programs (do nothing, throw, or synchronously raise a raw event), which is what
the claims about dispatch order, exception isolation and slot clearing need.
-/

/-- A 2D point with real coordinates, embedding `class Point` of the source. -/
structure Point where
  x : ℝ
  y : ℝ

/-- Embeds `get magnitude`: `Math.sqrt(Math.pow(0 - x, 2) + Math.pow(0 - y, 2))`. -/
noncomputable def Point.magnitude (p : Point) : ℝ :=
  Real.sqrt ((0 - p.x) ^ 2 + (0 - p.y) ^ 2)

/-- Embeds `get angle`: `Math.atan2(-y, x)` (y is inverted because of the
canvas coordinate space), written as the complex argument of `x + (-y)*I`. -/
noncomputable def Point.angle (p : Point) : ℝ :=
  Complex.arg ⟨p.x, -p.y⟩

/-- Embeds `normalize()`: divide both components by the magnitude. -/
noncomputable def Point.normalize (p : Point) : Point :=
  ⟨p.x / p.magnitude, p.y / p.magnitude⟩

/-- Embeds `set angle(newValue)`: `x = magnitude * cos(newValue)`,
`y = -(magnitude * sin(newValue))`. -/
noncomputable def Point.setAngle (p : Point) (newValue : ℝ) : Point :=
  ⟨p.magnitude * Real.cos newValue, -(p.magnitude * Real.sin newValue)⟩

/-- Embeds `set magnitude(newValue)`: `normalizeMutate()` then multiply both
components by the new value. -/
noncomputable def Point.setMagnitude (p : Point) (newValue : ℝ) : Point :=
  ⟨p.normalize.x * newValue, p.normalize.y * newValue⟩

/-- An IEEE-754-style number: a finite real, `NaN`, or a signed infinity.
Signed zero is collapsed onto `num 0`. -/
inductive JsFloat where
  | num : ℝ → JsFloat
  | nan : JsFloat
  | inf : JsFloat
  | ninf : JsFloat

/-- JavaScript subtraction on `JsFloat`. -/
def jsSub : JsFloat → JsFloat → JsFloat
  | .num a, .num b => .num (a - b)
  | .nan, _ => .nan
  | _, .nan => .nan
  | .inf, .inf => .nan
  | .inf, _ => .inf
  | .ninf, .ninf => .nan
  | .ninf, _ => .ninf
  | .num _, .inf => .ninf
  | .num _, .ninf => .inf

/-- JavaScript `Math.pow(b, 2)` on `JsFloat`. -/
def jsSq : JsFloat → JsFloat
  | .num a => .num (a ^ 2)
  | .nan => .nan
  | .inf => .inf
  | .ninf => .inf

/-- JavaScript addition on `JsFloat`. -/
def jsAdd : JsFloat → JsFloat → JsFloat
  | .num a, .num b => .num (a + b)
  | .nan, _ => .nan
  | _, .nan => .nan
  | .inf, .ninf => .nan
  | .inf, _ => .inf
  | .ninf, .inf => .nan
  | .ninf, _ => .ninf
  | .num _, .inf => .inf
  | .num _, .ninf => .ninf

/-- JavaScript `Math.sqrt` on `JsFloat` (`NaN` on negative input). -/
noncomputable def jsSqrt : JsFloat → JsFloat
  | .num a => if a < 0 then .nan else .num (Real.sqrt a)
  | .nan => .nan
  | .inf => .inf
  | .ninf => .nan

/-- JavaScript division on `JsFloat` (`0 / 0` is `NaN`; division of a nonzero
finite number by zero gives a signed infinity). -/
noncomputable def jsDiv : JsFloat → JsFloat → JsFloat
  | .num a, .num b =>
      if b = 0 then (if a = 0 then .nan else if 0 < a then .inf else .ninf)
      else .num (a / b)
  | .nan, _ => .nan
  | _, .nan => .nan
  | .inf, .inf => .nan
  | .inf, .ninf => .nan
  | .inf, .num b => if 0 ≤ b then .inf else .ninf
  | .ninf, .inf => .nan
  | .ninf, .ninf => .nan
  | .ninf, .num b => if 0 ≤ b then .ninf else .inf
  | .num _, .inf => .num 0
  | .num _, .ninf => .num 0

/-- A 2D point with `JsFloat` coordinates. -/
structure JsPoint where
  x : JsFloat
  y : JsFloat

/-- Embeds `get magnitude` over `JsFloat`. -/
noncomputable def JsPoint.magnitude (p : JsPoint) : JsFloat :=
  jsSqrt (jsAdd (jsSq (jsSub (.num 0) p.x)) (jsSq (jsSub (.num 0) p.y)))

/-- Embeds `normalize()` over `JsFloat`. -/
noncomputable def JsPoint.normalize (p : JsPoint) : JsPoint :=
  ⟨jsDiv p.x p.magnitude, jsDiv p.y p.magnitude⟩

/-- A 2D vector with rational coordinates, used for the input-pipeline model
(`Vector` in LowLevelMouse.ts is the same class as `Point`). -/
structure Vec where
  x : ℚ
  y : ℚ
deriving DecidableEq

/-- Componentwise subtraction (`subtractMutate` with a vector operand). -/
def Vec.sub (a b : Vec) : Vec := ⟨a.x - b.x, a.y - b.y⟩

/-- A 2D affine matrix `[a b; c d; e f]` in DOMMatrix layout. -/
structure Mat2D where
  a : ℚ
  b : ℚ
  c : ℚ
  d : ℚ
  e : ℚ
  f : ℚ
deriving DecidableEq

/-- DOMMatrix `transformPoint` for a 2D affine matrix. -/
def Mat2D.transformPoint (m : Mat2D) (v : Vec) : Vec :=
  ⟨m.a * v.x + m.c * v.y + m.e, m.b * v.x + m.d * v.y + m.f⟩

/-- Determinant of the linear part. -/
def Mat2D.det (m : Mat2D) : ℚ := m.a * m.d - m.b * m.c

/-- DOMMatrix `inverse()` for a 2D affine matrix. -/
def Mat2D.inverse (m : Mat2D) : Mat2D :=
  ⟨m.d / m.det, -m.b / m.det, -m.c / m.det, m.a / m.det,
   (m.c * m.f - m.d * m.e) / m.det, (m.b * m.e - m.a * m.f) / m.det⟩

/-- The identity affine matrix. -/
def Mat2D.id2 : Mat2D := ⟨1, 0, 0, 1, 0, 0⟩

/-- The static geometry a LowLevelMouse component reads: the canvas's
bounding client rect, its logical size, and the entity's world matrix. -/
structure Config where
  rectLeft : ℚ
  rectTop : ℚ
  rectWidth : ℚ
  rectHeight : ℚ
  canvasWidth : ℚ
  canvasHeight : ℚ
  worldMatrix : Mat2D
deriving DecidableEq

/-- Embeds `translatePos(clientX, clientY)`: subtract the rect offset, divide
by the scale factors, then apply the inverse of the entity's world matrix. -/
def translatePos (cfg : Config) (clientX clientY : ℚ) : Vec :=
  let scaleX := cfg.rectWidth / cfg.canvasWidth
  let scaleY := cfg.rectHeight / cfg.canvasHeight
  let x := (clientX - cfg.rectLeft) / scaleX
  let y := (clientY - cfg.rectTop) / scaleY
  (cfg.worldMatrix.inverse).transformPoint ⟨x, y⟩

/-- The per-button booleans of a HexMouseEvent. -/
structure MouseButtons where
  left : Bool
  right : Bool
  middle : Bool
  mouse4 : Bool
  mouse5 : Bool
deriving DecidableEq

/-- Embeds the button assignments of `updateEvent`:
each flag is `Boolean(buttons & bit) || button === index`. -/
def decodeButtons (buttons : ℕ) (button : Option ℕ) : MouseButtons :=
  ⟨(buttons &&& 1 != 0) || (button == some 0),
   (buttons &&& 2 != 0) || (button == some 2),
   (buttons &&& 4 != 0) || (button == some 1),
   (buttons &&& 8 != 0) || (button == some 3),
   (buttons &&& 16 != 0) || (button == some 4)⟩

/-- The five event classes a LowLevelMouse component dispatches. -/
inductive EvClass where
  | move
  | down
  | up
  | out
  | over
deriving DecidableEq

/-- The data captured by a pending closure: the raw event's client
coordinates, the `buttons` bitmask (0 when the raw event carried none), the
single `button` index (none when the raw event carried none), and the callback
set the closure triggers. -/
structure Pending where
  clientX : ℚ
  clientY : ℚ
  buttons : ℕ
  button : Option ℕ
  target : EvClass
deriving DecidableEq

/-- What a registered listener does when invoked: nothing, throw an
exception, or synchronously raise a raw browser event. -/
inductive LProg where
  | nop
  | throwErr
  | rawMove (clientX clientY : ℚ) (buttons : ℕ)
  | rawDown (clientX clientY : ℚ) (button : ℕ)
  | rawUp (clientX clientY : ℚ) (button : ℕ)
deriving DecidableEq

/-- Whether a listener program raises a `mousemove` raw event. -/
def LProg.schedulesMove : LProg → Bool
  | .rawMove _ _ _ => true
  | _ => false

/-- A registered listener: an identity plus its behaviour. -/
structure Listener where
  id : ℕ
  prog : LProg
deriving DecidableEq

/-- The value of the component's single mutable `HexMouseEvent` record. -/
structure Snapshot where
  pos : Vec
  delta : Vec
  buttons : MouseButtons
deriving DecidableEq

/-- The mutable state of one LowLevelMouse component together with the
process-wide first-click latch (`firstClickHasHappened` and
`pendingFirstClickHandlers` are module-level variables in the source). -/
structure MouseState where
  firstClickHasHappened : Bool
  pendingFirstClickHandlers : List ℕ
  moveCallbacks : List Listener
  downCallbacks : List Listener
  upCallbacks : List Listener
  outCallbacks : List Listener
  overCallbacks : List Listener
  lastPos : Vec
  event : Snapshot
  pendingMove : Option Pending
  pendingDown : Option Pending
  pendingUp : Option Pending
  isTouching : Bool
deriving DecidableEq

/-- Observable effects: a pending closure firing for an event class with the
snapshot it computed, a listener being invoked, or a first-click handler
being invoked. -/
inductive Out where
  | dispatch (c : EvClass) (snap : Snapshot)
  | invoke (id : ℕ)
  | firstClick (id : ℕ)
deriving DecidableEq

/-- Embeds `useFirstClick(handler)`: push the handler onto the process-wide
pending list.  The returned handle's getter is `MouseState.firstClickHasHappened`. -/
def useFirstClick (id : ℕ) (s : MouseState) : MouseState :=
  { s with pendingFirstClickHandlers := s.pendingFirstClickHandlers ++ [id] }

/-- Embeds the shared first-click block of `handleMouseDown` and
`handleTouchStart`: if the latch is unset, set it, run every pending handler
in order, and clear the list. -/
def fireFirstClick (s : MouseState) : MouseState × List Out :=
  if s.firstClickHasHappened then (s, [])
  else ({ s with firstClickHasHappened := true, pendingFirstClickHandlers := [] },
        s.pendingFirstClickHandlers.map Out.firstClick)

/-- Embeds `handleMouseMove`: overwrite the move slot with a closure that
will dispatch to the move callbacks with these parameters. -/
def handleMouseMove (clientX clientY : ℚ) (buttons : ℕ) (s : MouseState) : MouseState :=
  { s with pendingMove := some ⟨clientX, clientY, buttons, none, .move⟩ }

/-- Embeds `handleMouseDown`: run the first-click block, then overwrite the
down slot (the raw event carries only the single `button`; `buttons`
defaults to 0). -/
def handleMouseDown (clientX clientY : ℚ) (button : ℕ) (s : MouseState) : MouseState × List Out :=
  let r := fireFirstClick s
  ({ r.1 with pendingDown := some ⟨clientX, clientY, 0, some button, .down⟩ }, r.2)

/-- Embeds `handleMouseUp`: overwrite the up slot. -/
def handleMouseUp (clientX clientY : ℚ) (button : ℕ) (s : MouseState) : MouseState :=
  { s with pendingUp := some ⟨clientX, clientY, 0, some button, .up⟩ }

/-- Embeds `handleMouseOut`: overwrite the move slot with a closure that
dispatches to the out callbacks. -/
def handleMouseOut (clientX clientY : ℚ) (buttons : ℕ) (s : MouseState) : MouseState :=
  { s with pendingMove := some ⟨clientX, clientY, buttons, none, .out⟩ }

/-- Embeds `handleMouseOver`: overwrite the move slot with a closure that
dispatches to the over callbacks. -/
def handleMouseOver (clientX clientY : ℚ) (buttons : ℕ) (s : MouseState) : MouseState :=
  { s with pendingMove := some ⟨clientX, clientY, buttons, none, .over⟩ }

/-- Embeds `handleTouchStart`: return if already touching; run the
first-click block; return if there is no touch point; otherwise overwrite the
down slot with the first touch point (button 0) and set `isTouching`. -/
def handleTouchStart (touches : List (ℚ × ℚ)) (s : MouseState) : MouseState × List Out :=
  if s.isTouching then (s, [])
  else
    let r := fireFirstClick s
    match touches with
    | [] => r
    | (clientX, clientY) :: _ =>
        ({ r.1 with pendingDown := some ⟨clientX, clientY, 0, some 0, .down⟩,
                    isTouching := true }, r.2)

/-- Embeds `handleTouchMove`: return if there is no touch point; otherwise
overwrite the move slot with the first touch point (button 0). -/
def handleTouchMove (touches : List (ℚ × ℚ)) (s : MouseState) : MouseState :=
  match touches with
  | [] => s
  | (clientX, clientY) :: _ =>
      { s with pendingMove := some ⟨clientX, clientY, 0, some 0, .move⟩ }

/-- Embeds `handleTouchEnd`: return if not touching; return if there is no
changed touch point; otherwise overwrite the up slot and clear `isTouching`. -/
def handleTouchEnd (changedTouches : List (ℚ × ℚ)) (s : MouseState) : MouseState :=
  if s.isTouching then
    match changedTouches with
    | [] => s
    | (clientX, clientY) :: _ =>
        { s with pendingUp := some ⟨clientX, clientY, 0, some 0, .up⟩,
                 isTouching := false }
  else s

/-- Embeds `updateEvent`: recompute `pos` via `translatePos`, set `delta` to
the new position minus `lastPos`, update `lastPos`, and decode the buttons. -/
def updateEvent (cfg : Config) (clientX clientY : ℚ) (buttons : ℕ) (button : Option ℕ)
    (s : MouseState) : MouseState :=
  let pos := translatePos cfg clientX clientY
  { s with event := ⟨pos, pos.sub s.lastPos, decodeButtons buttons button⟩,
           lastPos := pos }

/-- The callback set of `storage` that a given event class dispatches to. -/
def callbacksFor (s : MouseState) (c : EvClass) : List Listener :=
  match c with
  | .move => s.moveCallbacks
  | .down => s.downCallbacks
  | .up => s.upCallbacks
  | .out => s.outCallbacks
  | .over => s.overCallbacks

/-- The result of running listeners or a flush: the new state, the emitted
effects, and whether an exception escaped. -/
structure ExecRes where
  state : MouseState
  out : List Out
  thrown : Bool
deriving DecidableEq

/-- Run one listener: its invocation is recorded by the caller; its body
either does nothing, throws, or raises a raw event through the corresponding
handler. -/
def execListener (l : Listener) (s : MouseState) : ExecRes :=
  match l.prog with
  | .nop => ⟨s, [], false⟩
  | .throwErr => ⟨s, [], true⟩
  | .rawMove cx cy b => ⟨handleMouseMove cx cy b s, [], false⟩
  | .rawDown cx cy b =>
      let r := handleMouseDown cx cy b s
      ⟨r.1, r.2, false⟩
  | .rawUp cx cy b => ⟨handleMouseUp cx cy b s, [], false⟩

/-- Embeds `triggerCallbacks`: `callbacks.forEach((callback) => callback(event))`.
JavaScript's `forEach` runs the callbacks in insertion order and an exception
thrown by one of them aborts the iteration and propagates. -/
def triggerCallbacks (ls : List Listener) (s : MouseState) : ExecRes :=
  match ls with
  | [] => ⟨s, [], false⟩
  | l :: rest =>
      let r := execListener l s
      if r.thrown then ⟨r.state, [Out.invoke l.id], true⟩
      else
        let r2 := triggerCallbacks rest r.state
        ⟨r2.state, Out.invoke l.id :: (r.out ++ r2.out), r2.thrown⟩

/-- The three pending slots. -/
inductive SlotId where
  | moveSlot
  | downSlot
  | upSlot
deriving DecidableEq

/-- Set a pending slot to empty (the `pendingX = null` first line of each
pending closure). -/
def clearSlot (sl : SlotId) (s : MouseState) : MouseState :=
  match sl with
  | .moveSlot => { s with pendingMove := none }
  | .downSlot => { s with pendingDown := none }
  | .upSlot => { s with pendingUp := none }

/-- Run one pending closure: clear its slot, run `updateEvent`, then trigger
the callbacks of the closure's target class. -/
def firePending (cfg : Config) (sl : SlotId) (p : Pending) (s : MouseState) : ExecRes :=
  let s1 := clearSlot sl s
  let s2 := updateEvent cfg p.clientX p.clientY p.buttons p.button s1
  let r := triggerCallbacks (callbacksFor s2 p.target) s2
  ⟨r.state, Out.dispatch p.target s2.event :: r.out, r.thrown⟩

/-- One `if (pendingX) pendingX();` line of the update hook. -/
def flushStep (cfg : Config) (sl : SlotId) (pend : Option Pending) (s : MouseState) : ExecRes :=
  match pend with
  | none => ⟨s, [], false⟩
  | some p => firePending cfg sl p s

/-- Embeds the `useUpdate` callback: process the move slot, then the down
slot, then the up slot; an exception propagates out of the hook and stops the
remaining slots. -/
def flush (cfg : Config) (s : MouseState) : ExecRes :=
  let r1 := flushStep cfg .moveSlot s.pendingMove s
  if r1.thrown then r1
  else
    let r2 := flushStep cfg .downSlot r1.state.pendingDown r1.state
    if r2.thrown then ⟨r2.state, r1.out ++ r2.out, true⟩
    else
      let r3 := flushStep cfg .upSlot r2.state.pendingUp r2.state
      ⟨r3.state, r1.out ++ (r2.out ++ r3.out), r3.thrown⟩

/-- Whether a pending slot's entry, if present, targets one of the given
classes. -/
def targetOkB : Option Pending → List EvClass → Bool
  | none, _ => true
  | some p, cs => cs.contains p.target

/-- States reachable by the component: closures stored in the move slot were
built by `handleMouseMove`/`handleMouseOut`/`handleMouseOver`, closures in the
down slot by `handleMouseDown`/`handleTouchStart`, closures in the up slot by
`handleMouseUp`/`handleTouchEnd`. -/
def wfB (s : MouseState) : Bool :=
  targetOkB s.pendingMove [.move, .out, .over] &&
  targetOkB s.pendingDown [.down] &&
  targetOkB s.pendingUp [.up]

/-- The classes of the dispatch effects of an output list, in order. -/
def dispatchClasses (outs : List Out) : List EvClass :=
  outs.filterMap (fun o => match o with | .dispatch c _ => some c | _ => none)

/-- The dispatch effects of an output list, with their snapshots, in order. -/
def dispatchList (outs : List Out) : List (EvClass × Snapshot) :=
  outs.filterMap (fun o => match o with | .dispatch c sn => some (c, sn) | _ => none)

/-- Whether a class is dispatched from the move slot. -/
def isMoveClass (c : EvClass) : Bool :=
  c == .move || c == .out || c == .over

/-- Checks that a list of dispatched classes is: at most one move-slot class,
then at most one `down`, then at most one `up`. -/
def orderedDispatchB (l : List EvClass) : Bool :=
  let l1 := match l with
    | c :: rest => if isMoveClass c then rest else l
    | [] => l
  let l2 := match l1 with
    | .down :: rest => rest
    | _ => l1
  let l3 := match l2 with
    | .up :: rest => rest
    | _ => l2
  l3.isEmpty

/-! Helper lemmas about the dispatch machinery. -/

lemma dispatchClasses_nil : dispatchClasses [] = [] := rfl

lemma dispatchClasses_append (a b : List Out) :
    dispatchClasses (a ++ b) = dispatchClasses a ++ dispatchClasses b := by
  simp [dispatchClasses]

lemma dispatchList_append (a b : List Out) :
    dispatchList (a ++ b) = dispatchList a ++ dispatchList b := by
  simp [dispatchList]

lemma dispatchList_map_firstClick (xs : List ℕ) :
    dispatchList (xs.map Out.firstClick) = [] := by
  induction xs with
  | nil => rfl
  | cons h t ih => simp only [List.map_cons, dispatchList, List.filterMap_cons] at ih ⊢; exact ih

lemma dispatchClasses_eq_map_fst (outs : List Out) :
    dispatchClasses outs = (dispatchList outs).map Prod.fst := by
  induction outs with
  | nil => rfl
  | cons o t ih => cases o <;> simp [dispatchClasses, dispatchList] at ih ⊢ <;> exact ih

lemma fireFirstClick_out (s : MouseState) :
    (fireFirstClick s).2 = [] ∨
      (fireFirstClick s).2 = s.pendingFirstClickHandlers.map Out.firstClick := by
  by_cases h : s.firstClickHasHappened <;> simp [fireFirstClick, h]

lemma execListener_out_dispatchList (l : Listener) (s : MouseState) :
    dispatchList (execListener l s).out = [] := by
  cases hp : l.prog <;> simp only [execListener, hp]
  case nop => rfl
  case throwErr => rfl
  case rawMove cx cy b => rfl
  case rawUp cx cy b => rfl
  case rawDown cx cy b =>
    show dispatchList (fireFirstClick s).2 = []
    rcases fireFirstClick_out s with h | h <;> rw [h]
    · rfl
    · exact dispatchList_map_firstClick _

lemma triggerCallbacks_out_dispatchList (ls : List Listener) (s : MouseState) :
    dispatchList (triggerCallbacks ls s).out = [] := by
  induction ls generalizing s with
  | nil => rfl
  | cons l rest ih =>
      simp only [triggerCallbacks]
      by_cases h : (execListener l s).thrown <;> simp only [h, if_true, if_false]
      · rfl
      · show dispatchList (Out.invoke l.id :: ((execListener l s).out ++ _)) = []
        simp only [dispatchList, List.filterMap_cons, List.filterMap_append]
        have h1 := execListener_out_dispatchList l s
        have h2 := ih (execListener l s).state
        simp only [dispatchList] at h1 h2
        simp [h1, h2]

lemma triggerCallbacks_out_dispatchClasses (ls : List Listener) (s : MouseState) :
    dispatchClasses (triggerCallbacks ls s).out = [] := by
  rw [dispatchClasses_eq_map_fst, triggerCallbacks_out_dispatchList]
  rfl

lemma execListener_cbs (l : Listener) (s : MouseState) (c : EvClass) :
    callbacksFor (execListener l s).state c = callbacksFor s c := by
  cases hp : l.prog <;>
    cases c <;>
      simp [execListener, hp, handleMouseMove, handleMouseDown, handleMouseUp,
        fireFirstClick, callbacksFor, apply_ite]

lemma triggerCallbacks_cbs (ls : List Listener) (s : MouseState) (c : EvClass) :
    callbacksFor (triggerCallbacks ls s).state c = callbacksFor s c := by
  induction ls generalizing s with
  | nil => rfl
  | cons l rest ih =>
      simp only [triggerCallbacks]
      by_cases h : (execListener l s).thrown <;> simp only [h, if_true, if_false]
      · exact execListener_cbs l s c
      · show callbacksFor (triggerCallbacks rest (execListener l s).state).state c = _
        rw [ih, execListener_cbs]

lemma clearSlot_cbs (sl : SlotId) (s : MouseState) (c : EvClass) :
    callbacksFor (clearSlot sl s) c = callbacksFor s c := by
  cases sl <;> cases c <;> simp [clearSlot, callbacksFor]

lemma updateEvent_cbs (cfg : Config) (cx cy : ℚ) (bm : ℕ) (b : Option ℕ)
    (s : MouseState) (c : EvClass) :
    callbacksFor (updateEvent cfg cx cy bm b s) c = callbacksFor s c := by
  cases c <;> simp [updateEvent, callbacksFor]

lemma firePending_cbs (cfg : Config) (sl : SlotId) (p : Pending) (s : MouseState) (c : EvClass) :
    callbacksFor (firePending cfg sl p s).state c = callbacksFor s c := by
  show callbacksFor (triggerCallbacks _ _).state c = _
  rw [triggerCallbacks_cbs, updateEvent_cbs, clearSlot_cbs]

lemma wfB_parts (s : MouseState) :
    wfB s = true ↔
      targetOkB s.pendingMove [.move, .out, .over] = true ∧
      targetOkB s.pendingDown [.down] = true ∧
      targetOkB s.pendingUp [.up] = true := by
  simp [wfB, Bool.and_eq_true, and_assoc]

lemma execListener_wf (l : Listener) (s : MouseState) (h : wfB s = true) :
    wfB (execListener l s).state = true := by
  rw [wfB_parts] at h ⊢
  obtain ⟨h1, h2, h3⟩ := h
  cases hp : l.prog <;>
    simp only [execListener, hp, handleMouseMove, handleMouseDown, handleMouseUp, fireFirstClick]
  · exact ⟨h1, h2, h3⟩
  · exact ⟨h1, h2, h3⟩
  · exact ⟨rfl, h2, h3⟩
  · by_cases hb : s.firstClickHasHappened <;> simp only [hb, if_true, if_false] <;>
      exact ⟨h1, rfl, h3⟩
  · exact ⟨h1, h2, rfl⟩

lemma triggerCallbacks_wf (ls : List Listener) (s : MouseState) (h : wfB s = true) :
    wfB (triggerCallbacks ls s).state = true := by
  induction ls generalizing s with
  | nil => exact h
  | cons l rest ih =>
      simp only [triggerCallbacks]
      by_cases ht : (execListener l s).thrown <;> simp only [ht, if_true, if_false]
      · exact execListener_wf l s h
      · exact ih _ (execListener_wf l s h)

lemma clearSlot_wf (sl : SlotId) (s : MouseState) (h : wfB s = true) :
    wfB (clearSlot sl s) = true := by
  rw [wfB_parts] at h ⊢
  obtain ⟨h1, h2, h3⟩ := h
  cases sl <;> simp only [clearSlot]
  · exact ⟨rfl, h2, h3⟩
  · exact ⟨h1, rfl, h3⟩
  · exact ⟨h1, h2, rfl⟩

lemma updateEvent_wf (cfg : Config) (cx cy : ℚ) (bm : ℕ) (b : Option ℕ)
    (s : MouseState) (h : wfB s = true) :
    wfB (updateEvent cfg cx cy bm b s) = true := by
  rw [wfB_parts] at h ⊢
  exact h

lemma firePending_wf (cfg : Config) (sl : SlotId) (p : Pending) (s : MouseState)
    (h : wfB s = true) :
    wfB (firePending cfg sl p s).state = true := by
  exact triggerCallbacks_wf _ _ (updateEvent_wf _ _ _ _ _ _ (clearSlot_wf _ _ h))

lemma execListener_noThrow (l : Listener) (s : MouseState) (h : l.prog ≠ .throwErr) :
    (execListener l s).thrown = false := by
  cases hp : l.prog <;> simp [execListener, hp] at h ⊢

lemma execListener_pendingMove (l : Listener) (s : MouseState)
    (h : l.prog.schedulesMove = false) :
    (execListener l s).state.pendingMove = s.pendingMove := by
  cases hp : l.prog <;>
    simp [execListener, hp, LProg.schedulesMove, handleMouseDown, handleMouseUp,
      fireFirstClick, apply_ite] at h ⊢

lemma triggerCallbacks_pendingMove (ls : List Listener) (s : MouseState)
    (h : ∀ l ∈ ls, l.prog.schedulesMove = false) :
    (triggerCallbacks ls s).state.pendingMove = s.pendingMove := by
  induction ls generalizing s with
  | nil => rfl
  | cons l rest ih =>
      simp only [triggerCallbacks]
      have hl := h l (by simp)
      by_cases ht : (execListener l s).thrown <;> simp only [ht, if_true, if_false]
      · exact execListener_pendingMove l s hl
      · show (triggerCallbacks rest (execListener l s).state).state.pendingMove = _
        rw [ih _ fun x hx => h x (by simp [hx]), execListener_pendingMove l s hl]

lemma triggerCallbacks_noThrow (ls : List Listener) (s : MouseState)
    (h : ∀ l ∈ ls, l.prog ≠ .throwErr) :
    (triggerCallbacks ls s).thrown = false := by
  induction ls generalizing s with
  | nil => rfl
  | cons l rest ih =>
      simp only [triggerCallbacks]
      have hl := execListener_noThrow l s (h l (by simp))
      simp only [hl, if_false]
      exact ih _ fun x hx => h x (by simp [hx])

lemma triggerCallbacks_last_rawMove (pre : List Listener) (i : ℕ) (cx cy : ℚ) (b : ℕ)
    (s : MouseState) (h : ∀ l ∈ pre, l.prog ≠ .throwErr) :
    (triggerCallbacks (pre ++ [⟨i, .rawMove cx cy b⟩]) s).state.pendingMove =
        some ⟨cx, cy, b, none, .move⟩ ∧
      (triggerCallbacks (pre ++ [⟨i, .rawMove cx cy b⟩]) s).thrown = false := by
  induction pre generalizing s with
  | nil =>
      constructor <;> rfl
  | cons l rest ih =>
      simp only [List.cons_append, triggerCallbacks]
      have hl := execListener_noThrow l s (h l (by simp))
      simp only [hl, if_false]
      exact ih _ fun x hx => h x (by simp [hx])

lemma triggerCallbacks_nop (ls : List Listener) (s : MouseState)
    (h : ∀ l ∈ ls, l.prog = .nop) :
    (triggerCallbacks ls s).state = s ∧ (triggerCallbacks ls s).thrown = false := by
  induction ls generalizing s with
  | nil => exact ⟨rfl, rfl⟩
  | cons l rest ih =>
      have hl : l.prog = .nop := h l (by simp)
      simp only [triggerCallbacks, execListener, hl]
      exact ih _ fun x hx => h x (by simp [hx])

lemma flushStep_dc_some (cfg : Config) (sl : SlotId) (p : Pending) (s : MouseState) :
    dispatchClasses (flushStep cfg sl (some p) s).out = [p.target] := by
  show dispatchClasses (Out.dispatch p.target _ :: (triggerCallbacks _ _).out) = [p.target]
  have h := triggerCallbacks_out_dispatchClasses
    (callbacksFor (updateEvent cfg p.clientX p.clientY p.buttons p.button (clearSlot sl s))
      p.target)
    (updateEvent cfg p.clientX p.clientY p.buttons p.button (clearSlot sl s))
  simp only [dispatchClasses, List.filterMap_cons] at h ⊢
  rw [h]

lemma flushStep_wf (cfg : Config) (sl : SlotId) (pend : Option Pending) (s : MouseState)
    (hw : wfB s = true) : wfB (flushStep cfg sl pend s).state = true := by
  cases pend
  · exact hw
  · exact firePending_wf _ _ _ _ hw

lemma flushStep_move_dc (cfg : Config) (pend : Option Pending) (s : MouseState)
    (hw : targetOkB pend [.move, .out, .over] = true) :
    dispatchClasses (flushStep cfg .moveSlot pend s).out = [] ∨
      ∃ m, dispatchClasses (flushStep cfg .moveSlot pend s).out = [m] ∧
        isMoveClass m = true := by
  cases pend with
  | none => exact Or.inl rfl
  | some p =>
      refine Or.inr ⟨p.target, flushStep_dc_some cfg _ p s, ?_⟩
      cases ht : p.target <;> simp [targetOkB, ht, isMoveClass] at hw ⊢

lemma flushStep_down_dc (cfg : Config) (pend : Option Pending) (s : MouseState)
    (hw : targetOkB pend [.down] = true) :
    dispatchClasses (flushStep cfg .downSlot pend s).out = [] ∨
      dispatchClasses (flushStep cfg .downSlot pend s).out = [.down] := by
  cases pend with
  | none => exact Or.inl rfl
  | some p =>
      refine Or.inr ?_
      rw [flushStep_dc_some]
      cases ht : p.target <;> simp [targetOkB, ht] at hw ⊢

lemma flushStep_up_dc (cfg : Config) (pend : Option Pending) (s : MouseState)
    (hw : targetOkB pend [.up] = true) :
    dispatchClasses (flushStep cfg .upSlot pend s).out = [] ∨
      dispatchClasses (flushStep cfg .upSlot pend s).out = [.up] := by
  cases pend with
  | none => exact Or.inl rfl
  | some p =>
      refine Or.inr ?_
      rw [flushStep_dc_some]
      cases ht : p.target <;> simp [targetOkB, ht] at hw ⊢

lemma flush_split (cfg : Config) (s : MouseState) (hwf : wfB s = true) :
    ∃ a b c : List EvClass,
      dispatchClasses (flush cfg s).out = a ++ b ++ c ∧
      (a = [] ∨ ∃ m, a = [m] ∧ isMoveClass m = true) ∧
      (b = [] ∨ b = [.down]) ∧
      (c = [] ∨ c = [.up]) := by
  obtain ⟨hw1, hw2, hw3⟩ := (wfB_parts s).mp hwf
  have ha := flushStep_move_dc cfg s.pendingMove s hw1
  have hwr1 := flushStep_wf cfg .moveSlot s.pendingMove s hwf
  obtain ⟨hw1r, hw2r, hw3r⟩ :=
    (wfB_parts (flushStep cfg SlotId.moveSlot s.pendingMove s).state).mp hwr1
  simp only [flush]
  by_cases h1 : (flushStep cfg SlotId.moveSlot s.pendingMove s).thrown
  · rw [if_pos h1]
    exact ⟨dispatchClasses (flushStep cfg SlotId.moveSlot s.pendingMove s).out, [], [],
      by simp, ha, Or.inl rfl, Or.inl rfl⟩
  · rw [if_neg h1]
    have hb := flushStep_down_dc cfg
      (flushStep cfg SlotId.moveSlot s.pendingMove s).state.pendingDown
      (flushStep cfg SlotId.moveSlot s.pendingMove s).state hw2r
    have hwr2 := flushStep_wf cfg .downSlot
      (flushStep cfg SlotId.moveSlot s.pendingMove s).state.pendingDown
      (flushStep cfg SlotId.moveSlot s.pendingMove s).state hwr1
    by_cases h2 : (flushStep cfg SlotId.downSlot
        (flushStep cfg SlotId.moveSlot s.pendingMove s).state.pendingDown
        (flushStep cfg SlotId.moveSlot s.pendingMove s).state).thrown
    · rw [if_pos h2]
      refine ⟨dispatchClasses (flushStep cfg SlotId.moveSlot s.pendingMove s).out,
        dispatchClasses (flushStep cfg SlotId.downSlot _ _).out, [], ?_, ha, hb, Or.inl rfl⟩
      simp [dispatchClasses_append]
    · rw [if_neg h2]
      refine ⟨dispatchClasses (flushStep cfg SlotId.moveSlot s.pendingMove s).out,
        dispatchClasses (flushStep cfg SlotId.downSlot
          (flushStep cfg SlotId.moveSlot s.pendingMove s).state.pendingDown
          (flushStep cfg SlotId.moveSlot s.pendingMove s).state).out,
        dispatchClasses (flushStep cfg SlotId.upSlot
          (flushStep cfg SlotId.downSlot
            (flushStep cfg SlotId.moveSlot s.pendingMove s).state.pendingDown
            (flushStep cfg SlotId.moveSlot s.pendingMove s).state).state.pendingUp
          (flushStep cfg SlotId.downSlot
            (flushStep cfg SlotId.moveSlot s.pendingMove s).state.pendingDown
            (flushStep cfg SlotId.moveSlot s.pendingMove s).state).state).out, ?_, ha, hb, ?_⟩
      · simp [dispatchClasses_append]
      · refine flushStep_up_dc cfg _ _ ?_
        exact ((wfB_parts _).mp hwr2).2.2

lemma firePending_pendingMove_down (cfg : Config) (q : Pending) (s : MouseState)
    (ht : q.target = .down)
    (h : ∀ l ∈ s.downCallbacks, l.prog.schedulesMove = false) :
    (firePending cfg .downSlot q s).state.pendingMove = s.pendingMove := by
  show (triggerCallbacks (callbacksFor _ q.target) _).state.pendingMove = _
  have hcb : callbacksFor
      (updateEvent cfg q.clientX q.clientY q.buttons q.button (clearSlot .downSlot s))
      q.target = s.downCallbacks := by
    rw [ht, updateEvent_cbs, clearSlot_cbs]
    rfl
  rw [hcb, triggerCallbacks_pendingMove _ _ h]
  rfl

lemma firePending_pendingMove_up (cfg : Config) (q : Pending) (s : MouseState)
    (ht : q.target = .up)
    (h : ∀ l ∈ s.upCallbacks, l.prog.schedulesMove = false) :
    (firePending cfg .upSlot q s).state.pendingMove = s.pendingMove := by
  show (triggerCallbacks (callbacksFor _ q.target) _).state.pendingMove = _
  have hcb : callbacksFor
      (updateEvent cfg q.clientX q.clientY q.buttons q.button (clearSlot .upSlot s))
      q.target = s.upCallbacks := by
    rw [ht, updateEvent_cbs, clearSlot_cbs]
    rfl
  rw [hcb, triggerCallbacks_pendingMove _ _ h]
  rfl

lemma orderedDispatchB_of_split (a b c : List EvClass)
    (ha : a = [] ∨ ∃ m, a = [m] ∧ isMoveClass m = true)
    (hb : b = [] ∨ b = [.down]) (hc : c = [] ∨ c = [.up]) :
    orderedDispatchB (a ++ b ++ c) = true := by
  rcases ha with rfl | ⟨m, rfl, hm⟩
  · rcases hb with rfl | rfl <;> rcases hc with rfl | rfl <;> decide
  · cases m <;> simp [isMoveClass] at hm <;>
      rcases hb with rfl | rfl <;> rcases hc with rfl | rfl <;> decide

lemma countP_moveClass_of_split (a b c : List EvClass)
    (ha : a = [] ∨ ∃ m, a = [m] ∧ isMoveClass m = true)
    (hb : b = [] ∨ b = [.down]) (hc : c = [] ∨ c = [.up]) :
    (a ++ b ++ c).countP (fun c => isMoveClass c) ≤ 1 := by
  rcases ha with rfl | ⟨m, rfl, hm⟩
  · rcases hb with rfl | rfl <;> rcases hc with rfl | rfl <;> decide
  · cases m <;> simp [isMoveClass] at hm <;>
      rcases hb with rfl | rfl <;> rcases hc with rfl | rfl <;> decide

/-- C1: once per update tick, the flush fires the pending closures in the
fixed order move, then down, then up, each at most once per tick; and each
slot is set to empty before that slot's listeners are invoked, so a listener
that synchronously schedules a new pending action (here: the last move
listener raising a new mousemove) is not clobbered by the clearing step. -/
theorem flush_ordered_and_clears_before_invoking (cfg : Config) (s : MouseState)
    (hwf : wfB s = true) :
    orderedDispatchB (dispatchClasses (flush cfg s).out) = true ∧
    (∀ p pre i cx cy b,
      s.pendingMove = some p → p.target = .move →
      s.moveCallbacks = pre ++ [⟨i, .rawMove cx cy b⟩] →
      (∀ l ∈ pre, l.prog ≠ .throwErr) →
      (∀ l ∈ s.downCallbacks, l.prog.schedulesMove = false) →
      (∀ l ∈ s.upCallbacks, l.prog.schedulesMove = false) →
      (flush cfg s).state.pendingMove = some ⟨cx, cy, b, none, .move⟩) := by
  constructor
  · obtain ⟨a, b, c, heq, ha, hb, hc⟩ := flush_split cfg s hwf
    rw [heq]
    exact orderedDispatchB_of_split a b c ha hb hc
  · intro p pre i cx cy b hpm ht hmc hpre hd hu
    have hcbm : callbacksFor
        (updateEvent cfg p.clientX p.clientY p.buttons p.button (clearSlot .moveSlot s))
        p.target = s.moveCallbacks := by
      rw [ht, updateEvent_cbs, clearSlot_cbs]
      rfl
    have h1 : (firePending cfg SlotId.moveSlot p s).state.pendingMove =
        some ⟨cx, cy, b, none, .move⟩ := by
      show (triggerCallbacks (callbacksFor _ p.target) _).state.pendingMove = _
      rw [hcbm, hmc]
      exact (triggerCallbacks_last_rawMove pre i cx cy b _ hpre).1
    have h1t : (firePending cfg SlotId.moveSlot p s).thrown = false := by
      show (triggerCallbacks (callbacksFor _ p.target) _).thrown = false
      rw [hcbm, hmc]
      exact (triggerCallbacks_last_rawMove pre i cx cy b _ hpre).2
    have h1d : (firePending cfg SlotId.moveSlot p s).state.downCallbacks =
        s.downCallbacks := firePending_cbs cfg .moveSlot p s .down
    have h1u : (firePending cfg SlotId.moveSlot p s).state.upCallbacks =
        s.upCallbacks := firePending_cbs cfg .moveSlot p s .up
    have h1wf : wfB (firePending cfg SlotId.moveSlot p s).state = true :=
      firePending_wf cfg .moveSlot p s hwf
    simp only [flush, hpm]
    have hfs : flushStep cfg SlotId.moveSlot (some p) s =
        firePending cfg SlotId.moveSlot p s := rfl
    rw [hfs, if_neg (by rw [h1t]; exact Bool.false_ne_true)]
    -- the down slot
    have h2main : ∀ r2 : ExecRes,
        r2 = flushStep cfg SlotId.downSlot
          (firePending cfg SlotId.moveSlot p s).state.pendingDown
          (firePending cfg SlotId.moveSlot p s).state →
        r2.state.pendingMove = some ⟨cx, cy, b, none, .move⟩ ∧
          wfB r2.state = true ∧ r2.state.upCallbacks = s.upCallbacks := by
      intro r2 hr2
      cases hq : (firePending cfg SlotId.moveSlot p s).state.pendingDown with
      | none =>
          rw [hr2, hq]
          exact ⟨h1, h1wf, h1u⟩
      | some q =>
          have hqt : q.target = .down := by
            have := ((wfB_parts _).mp h1wf).2.1
            rw [hq] at this
            cases hqt : q.target <;> simp [targetOkB, hqt] at this ⊢
          rw [hr2, hq]
          have hfs2 : flushStep cfg SlotId.downSlot (some q)
              (firePending cfg SlotId.moveSlot p s).state =
              firePending cfg SlotId.downSlot q
                (firePending cfg SlotId.moveSlot p s).state := rfl
          rw [hfs2]
          refine ⟨?_, firePending_wf _ _ _ _ h1wf, ?_⟩
          · rw [firePending_pendingMove_down cfg q _ hqt (by rw [h1d]; exact hd)]
            exact h1
          · exact (firePending_cbs cfg SlotId.downSlot q
              (firePending cfg SlotId.moveSlot p s).state .up).trans h1u
    obtain ⟨h2pm, h2wf, h2u⟩ := h2main _ rfl
    by_cases h2t : (flushStep cfg SlotId.downSlot
        (firePending cfg SlotId.moveSlot p s).state.pendingDown
        (firePending cfg SlotId.moveSlot p s).state).thrown
    · rw [if_pos h2t]
      exact h2pm
    · rw [if_neg h2t]
      -- the up slot
      cases hr : (flushStep cfg SlotId.downSlot
          (firePending cfg SlotId.moveSlot p s).state.pendingDown
          (firePending cfg SlotId.moveSlot p s).state).state.pendingUp with
      | none =>
          exact h2pm
      | some u =>
          have hut : u.target = .up := by
            have := ((wfB_parts _).mp h2wf).2.2
            rw [hr] at this
            cases hut : u.target <;> simp [targetOkB, hut] at this ⊢
          have hfs3 : flushStep cfg SlotId.upSlot (some u)
              (flushStep cfg SlotId.downSlot
                (firePending cfg SlotId.moveSlot p s).state.pendingDown
                (firePending cfg SlotId.moveSlot p s).state).state =
              firePending cfg SlotId.upSlot u
                (flushStep cfg SlotId.downSlot
                  (firePending cfg SlotId.moveSlot p s).state.pendingDown
                  (firePending cfg SlotId.moveSlot p s).state).state := rfl
          rw [hfs3]
          show (firePending cfg SlotId.upSlot u _).state.pendingMove = _
          rw [firePending_pendingMove_up cfg u _ hut (by rw [h2u]; exact hu)]
          exact h2pm

/-- A scale-1, zero-offset, identity-transform configuration used as a
concrete instance. -/
def exCfg : Config := ⟨0, 0, 1, 1, 1, 1, Mat2D.id2⟩

/-- A concrete component state: one registered move listener (which raises a
new mousemove when invoked) and a pending move. -/
def exStateC1 : MouseState :=
  ⟨false, [], [⟨5, .rawMove 1 2 3⟩], [], [], [], [], ⟨0, 0⟩,
   ⟨⟨0, 0⟩, ⟨0, 0⟩, ⟨false, false, false, false, false⟩⟩,
   some ⟨0, 0, 0, none, .move⟩, none, none, false⟩

theorem flush_ordered_and_clears_before_invoking_witness :
    wfB exStateC1 = true ∧
    orderedDispatchB (dispatchClasses (flush exCfg exStateC1).out) = true ∧
    (flush exCfg exStateC1).state.pendingMove = some ⟨1, 2, 3, none, .move⟩ := by
  have h := flush_ordered_and_clears_before_invoking exCfg exStateC1 (by decide)
  exact ⟨by decide, h.1,
    h.2 ⟨0, 0, 0, none, .move⟩ [] 5 1 2 3 rfl rfl rfl (by decide) (by decide) (by decide)⟩

/-- C5: the mouseout and mouseover raw handlers write into the same single
pending slot as mousemove (`pendingMove`), leaving the down and up slots
untouched, so a later raw event of any of the three classes discards the
earlier pending event's data and class, and at most one dispatch among
move, out, over occurs at the next flush. -/
theorem out_over_share_move_slot (cfg : Config) (s : MouseState) (cx cy : ℚ) (bm : ℕ)
    (hwf : wfB s = true) :
    (handleMouseMove cx cy bm s).pendingMove = some ⟨cx, cy, bm, none, .move⟩ ∧
    (handleMouseOut cx cy bm s).pendingMove = some ⟨cx, cy, bm, none, .out⟩ ∧
    (handleMouseOver cx cy bm s).pendingMove = some ⟨cx, cy, bm, none, .over⟩ ∧
    (handleMouseMove cx cy bm s).pendingDown = s.pendingDown ∧
    (handleMouseMove cx cy bm s).pendingUp = s.pendingUp ∧
    (handleMouseOut cx cy bm s).pendingDown = s.pendingDown ∧
    (handleMouseOut cx cy bm s).pendingUp = s.pendingUp ∧
    (handleMouseOver cx cy bm s).pendingDown = s.pendingDown ∧
    (handleMouseOver cx cy bm s).pendingUp = s.pendingUp ∧
    (dispatchClasses (flush cfg s).out).countP (fun c => isMoveClass c) ≤ 1 := by
  refine ⟨rfl, rfl, rfl, rfl, rfl, rfl, rfl, rfl, rfl, ?_⟩
  obtain ⟨a, b, c, heq, ha, hb, hc⟩ := flush_split cfg s hwf
  rw [heq]
  exact countP_moveClass_of_split a b c ha hb hc

theorem out_over_share_move_slot_witness :
    wfB exStateC1 = true ∧
    (handleMouseOut 4 5 6 exStateC1).pendingMove = some ⟨4, 5, 6, none, .out⟩ ∧
    (dispatchClasses (flush exCfg exStateC1).out).countP (fun c => isMoveClass c) ≤ 1 := by
  have h := out_over_share_move_slot exCfg exStateC1 4 5 6 (by decide)
  exact ⟨by decide, h.2.1, h.2.2.2.2.2.2.2.2.2⟩

lemma firePending_nop_eval (cfg : Config) (sl : SlotId) (p : Pending) (s : MouseState)
    (h : ∀ l ∈ callbacksFor s p.target, l.prog = .nop) :
    (firePending cfg sl p s).state =
      updateEvent cfg p.clientX p.clientY p.buttons p.button (clearSlot sl s) ∧
    (firePending cfg sl p s).thrown = false ∧
    dispatchList (firePending cfg sl p s).out =
      [(p.target,
        (updateEvent cfg p.clientX p.clientY p.buttons p.button (clearSlot sl s)).event)] := by
  have hcb : callbacksFor
      (updateEvent cfg p.clientX p.clientY p.buttons p.button (clearSlot sl s)) p.target =
      callbacksFor s p.target := by
    rw [updateEvent_cbs, clearSlot_cbs]
  have hnop := triggerCallbacks_nop
    (callbacksFor (updateEvent cfg p.clientX p.clientY p.buttons p.button (clearSlot sl s))
      p.target)
    (updateEvent cfg p.clientX p.clientY p.buttons p.button (clearSlot sl s))
    (by rw [hcb]; exact h)
  refine ⟨hnop.1, hnop.2, ?_⟩
  show dispatchList (Out.dispatch p.target _ :: (triggerCallbacks _ _).out) = _
  have hdl := triggerCallbacks_out_dispatchList
    (callbacksFor (updateEvent cfg p.clientX p.clientY p.buttons p.button (clearSlot sl s))
      p.target)
    (updateEvent cfg p.clientX p.clientY p.buttons p.button (clearSlot sl s))
  simp only [dispatchList, List.filterMap_cons] at hdl ⊢
  rw [hdl]

lemma fireFirstClick_pendings (s : MouseState) :
    (fireFirstClick s).1.pendingMove = s.pendingMove ∧
    (fireFirstClick s).1.pendingDown = s.pendingDown ∧
    (fireFirstClick s).1.pendingUp = s.pendingUp ∧
    (fireFirstClick s).1.lastPos = s.lastPos ∧
    (fireFirstClick s).1.moveCallbacks = s.moveCallbacks ∧
    (fireFirstClick s).1.downCallbacks = s.downCallbacks := by
  by_cases h : s.firstClickHasHappened <;> simp [fireFirstClick, h]

lemma flush_move_then_down_eval (cfg : Config) (s : MouseState) (m d : Pending)
    (hm : s.pendingMove = some m) (hmt : m.target = .move)
    (hd : s.pendingDown = some d) (hdt : d.target = .down)
    (hu : s.pendingUp = none)
    (hmc : ∀ l ∈ s.moveCallbacks, l.prog = .nop)
    (hdc : ∀ l ∈ s.downCallbacks, l.prog = .nop) :
    dispatchList (flush cfg s).out =
      [(m.target, ⟨translatePos cfg m.clientX m.clientY,
        (translatePos cfg m.clientX m.clientY).sub s.lastPos,
        decodeButtons m.buttons m.button⟩),
       (d.target, ⟨translatePos cfg d.clientX d.clientY,
        (translatePos cfg d.clientX d.clientY).sub (translatePos cfg m.clientX m.clientY),
        decodeButtons d.buttons d.button⟩)] ∧
    (flush cfg s).state.lastPos = translatePos cfg d.clientX d.clientY := by
  have e1 := firePending_nop_eval cfg .moveSlot m s (by rw [hmt]; exact hmc)
  obtain ⟨e1s, e1t, e1o⟩ := e1
  have hstep1 : flushStep cfg SlotId.moveSlot s.pendingMove s =
      firePending cfg SlotId.moveSlot m s := by
    rw [hm]
    rfl
  have hdown2 : (firePending cfg SlotId.moveSlot m s).state.pendingDown = some d := by
    rw [e1s]
    exact hd
  have hdc2 : ∀ l ∈ (firePending cfg SlotId.moveSlot m s).state.downCallbacks,
      l.prog = .nop := by
    rw [e1s]
    exact hdc
  have e2 := firePending_nop_eval cfg .downSlot d (firePending cfg SlotId.moveSlot m s).state
    (by rw [hdt]; exact hdc2)
  obtain ⟨e2s, e2t, e2o⟩ := e2
  have hup3 : (firePending cfg SlotId.downSlot d
      (firePending cfg SlotId.moveSlot m s).state).state.pendingUp = none := by
    rw [e2s, e1s]
    exact hu
  simp only [flush, hstep1, e1t, Bool.false_eq_true, if_false]
  have hstep2 : flushStep cfg SlotId.downSlot
      (firePending cfg SlotId.moveSlot m s).state.pendingDown
      (firePending cfg SlotId.moveSlot m s).state =
      firePending cfg SlotId.downSlot d (firePending cfg SlotId.moveSlot m s).state := by
    rw [hdown2]
    rfl
  rw [hstep2]
  simp only [e2t, Bool.false_eq_true, if_false]
  have hstep3 : flushStep cfg SlotId.upSlot
      (firePending cfg SlotId.downSlot d
        (firePending cfg SlotId.moveSlot m s).state).state.pendingUp
      (firePending cfg SlotId.downSlot d
        (firePending cfg SlotId.moveSlot m s).state).state =
      ⟨(firePending cfg SlotId.downSlot d
        (firePending cfg SlotId.moveSlot m s).state).state, [], false⟩ := by
    rw [hup3]
    rfl
  rw [hstep3]
  constructor
  · show dispatchList ((firePending cfg SlotId.moveSlot m s).out ++
      ((firePending cfg SlotId.downSlot d (firePending cfg SlotId.moveSlot m s).state).out
        ++ [])) = _
    rw [List.append_nil, dispatchList_append, e1o, e2o, e1s]
    show _ = [(m.target, (updateEvent cfg m.clientX m.clientY m.buttons m.button
        (clearSlot .moveSlot s)).event),
      (d.target, (updateEvent cfg d.clientX d.clientY d.buttons d.button
        (clearSlot .downSlot (updateEvent cfg m.clientX m.clientY m.buttons m.button
          (clearSlot .moveSlot s)))).event)]
    rfl
  · show (firePending cfg SlotId.downSlot d
      (firePending cfg SlotId.moveSlot m s).state).state.lastPos = _
    rw [e2s]
    rfl

/-- C2: raw events move(10,10), move(20,20), down(button 0) arriving within
one tick produce, at the next flush, exactly one move dispatch and one down
dispatch; the move dispatch uses only the latest coordinates (20,20), its
delta is the translated (20,20) minus the `lastPos` snapshot recorded before
the tick, and after each dispatch `lastPos` is updated to the newly
translated position (visible in the down dispatch's delta and in the final
state). -/
theorem coalesce_within_tick (cfg : Config) (s : MouseState) (bm bm' : ℕ) (dx dy : ℚ)
    (hu : s.pendingUp = none)
    (hmc : ∀ l ∈ s.moveCallbacks, l.prog = .nop)
    (hdc : ∀ l ∈ s.downCallbacks, l.prog = .nop) :
    dispatchList (flush cfg (handleMouseDown dx dy 0
        (handleMouseMove 20 20 bm' (handleMouseMove 10 10 bm s))).1).out =
      [(.move, ⟨translatePos cfg 20 20, (translatePos cfg 20 20).sub s.lastPos,
        decodeButtons bm' none⟩),
       (.down, ⟨translatePos cfg dx dy,
        (translatePos cfg dx dy).sub (translatePos cfg 20 20),
        decodeButtons 0 (some 0)⟩)] ∧
    (flush cfg (handleMouseDown dx dy 0
        (handleMouseMove 20 20 bm' (handleMouseMove 10 10 bm s))).1).state.lastPos =
      translatePos cfg dx dy := by
  obtain ⟨f1, f2, f3, f4, f5, f6⟩ :=
    fireFirstClick_pendings (handleMouseMove 20 20 bm' (handleMouseMove 10 10 bm s))
  have h := flush_move_then_down_eval cfg
    (handleMouseDown dx dy 0 (handleMouseMove 20 20 bm' (handleMouseMove 10 10 bm s))).1
    ⟨20, 20, bm', none, .move⟩ ⟨dx, dy, 0, some 0, .down⟩
    (by
      show (fireFirstClick _).1.pendingMove = _
      rw [f1]
      rfl)
    rfl
    rfl
    rfl
    (by
      show (fireFirstClick _).1.pendingUp = _
      rw [f3]
      exact hu)
    (by
      show ∀ l ∈ (fireFirstClick _).1.moveCallbacks, l.prog = LProg.nop
      rw [f5]
      exact hmc)
    (by
      show ∀ l ∈ (fireFirstClick _).1.downCallbacks, l.prog = LProg.nop
      rw [f6]
      exact hdc)
  refine ⟨?_, ?_⟩
  · rw [h.1]
    have hlp : (handleMouseDown dx dy 0
        (handleMouseMove 20 20 bm' (handleMouseMove 10 10 bm s))).1.lastPos = s.lastPos := by
      show (fireFirstClick _).1.lastPos = _
      rw [f4]
      rfl
    rw [hlp]
  · exact h.2

/-- A concrete component state with empty pending slots, two nop listeners,
and lastPos (3,4), used as a concrete instance. -/
def exStateC2 : MouseState :=
  ⟨false, [], [⟨0, .nop⟩], [⟨1, .nop⟩], [], [], [], ⟨3, 4⟩,
   ⟨⟨0, 0⟩, ⟨0, 0⟩, ⟨false, false, false, false, false⟩⟩, none, none, none, false⟩

theorem coalesce_within_tick_witness :
    exStateC2.pendingUp = none ∧
    dispatchList (flush exCfg (handleMouseDown 20 20 0
        (handleMouseMove 20 20 1 (handleMouseMove 10 10 0 exStateC2))).1).out =
      [(.move, ⟨translatePos exCfg 20 20, (translatePos exCfg 20 20).sub exStateC2.lastPos,
        decodeButtons 1 none⟩),
       (.down, ⟨translatePos exCfg 20 20,
        (translatePos exCfg 20 20).sub (translatePos exCfg 20 20),
        decodeButtons 0 (some 0)⟩)] ∧
    (flush exCfg (handleMouseDown 20 20 0
        (handleMouseMove 20 20 1 (handleMouseMove 10 10 0 exStateC2))).1).state.lastPos =
      translatePos exCfg 20 20 := by
  have h := coalesce_within_tick exCfg exStateC2 0 1 20 20 rfl (by decide) (by decide)
  exact ⟨rfl, h.1, h.2⟩

/-- C3 counterexample: in `triggerCallbacks` a listener that throws aborts
the dispatch loop; the second registered listener is never invoked and the
exception escapes the loop. -/
theorem listener_exception_not_isolated :
    (triggerCallbacks [⟨0, .throwErr⟩, ⟨1, .nop⟩] exStateC2).thrown = true ∧
    Out.invoke 1 ∉ (triggerCallbacks [⟨0, .throwErr⟩, ⟨1, .nop⟩] exStateC2).out := by
  decide

/-- C3 amended: when a listener throws during a dispatch pass, the listeners
registered before it all ran, the thrower itself is invoked, the exception
propagates out of the dispatch loop, and the listeners registered after it do
not run in that pass. -/
theorem listener_throw_aborts_dispatch (ls₁ ls₂ : List Listener) (l : Listener)
    (s : MouseState) (h1 : ∀ x ∈ ls₁, x.prog ≠ .throwErr) (h2 : l.prog = .throwErr) :
    (triggerCallbacks (ls₁ ++ l :: ls₂) s).thrown = true ∧
    (triggerCallbacks (ls₁ ++ l :: ls₂) s).out =
      (triggerCallbacks ls₁ s).out ++ [Out.invoke l.id] ∧
    (triggerCallbacks (ls₁ ++ l :: ls₂) s).state = (triggerCallbacks ls₁ s).state := by
  induction ls₁ generalizing s with
  | nil =>
      have he : execListener l s = ⟨s, [], true⟩ := by
        simp [execListener, h2]
      simp only [List.nil_append, triggerCallbacks, he]
      exact ⟨rfl, by simp, rfl⟩
  | cons a rest ih =>
      have ha : (execListener a s).thrown = false := execListener_noThrow a s (h1 a (by simp))
      obtain ⟨i1, i2, i3⟩ := ih (execListener a s).state
        (fun x hx => h1 x (List.mem_cons_of_mem a hx))
      simp only [List.cons_append, triggerCallbacks, ha, Bool.false_eq_true, if_false,
        List.append_eq]
      refine ⟨i1, ?_, i3⟩
      rw [i2]
      simp

theorem listener_throw_aborts_dispatch_witness :
    (triggerCallbacks ([⟨0, .nop⟩] ++ ⟨1, .throwErr⟩ :: [⟨2, .nop⟩]) exStateC2).thrown = true ∧
    (triggerCallbacks ([⟨0, .nop⟩] ++ ⟨1, .throwErr⟩ :: [⟨2, .nop⟩]) exStateC2).out =
      (triggerCallbacks [⟨0, .nop⟩] exStateC2).out ++ [Out.invoke 1] := by
  have h := listener_throw_aborts_dispatch [⟨0, .nop⟩] [⟨2, .nop⟩] ⟨1, .throwErr⟩ exStateC2
    (by decide) rfl
  exact ⟨h.1, h.2.1⟩

/-- C4: before any down or touch-start, a mouse-down (or a touch-start while
not touching) flips the process-wide latch permanently, invokes every queued
first-click callback exactly once in registration order, and clears the
queue; a later down event invokes none of them; a callback registered after
the latch flipped is only queued, never invoked, but its handle reads
`firstClickHasHappened = true` immediately. -/
theorem first_click_latch (s : MouseState) (cx cy : ℚ) (b : ℕ) (tx ty : ℚ)
    (h : s.firstClickHasHappened = false) :
    (handleMouseDown cx cy b s).2 = s.pendingFirstClickHandlers.map Out.firstClick ∧
    (handleMouseDown cx cy b s).1.firstClickHasHappened = true ∧
    (handleMouseDown cx cy b s).1.pendingFirstClickHandlers = [] ∧
    (s.isTouching = false →
      (handleTouchStart [(tx, ty)] s).2 = s.pendingFirstClickHandlers.map Out.firstClick ∧
      (handleTouchStart [(tx, ty)] s).1.firstClickHasHappened = true ∧
      (handleTouchStart [(tx, ty)] s).1.pendingFirstClickHandlers = []) ∧
    (∀ s' : MouseState, s'.firstClickHasHappened = true → ∀ cx' cy' b',
      (handleMouseDown cx' cy' b' s').2 = [] ∧
      (handleMouseDown cx' cy' b' s').1.firstClickHasHappened = true) ∧
    (∀ s' : MouseState, ∀ newId,
      (useFirstClick newId s').pendingFirstClickHandlers =
        s'.pendingFirstClickHandlers ++ [newId] ∧
      (useFirstClick newId s').firstClickHasHappened = s'.firstClickHasHappened) := by
  refine ⟨?_, ?_, ?_, ?_, ?_, ?_⟩
  · simp [handleMouseDown, fireFirstClick, h]
  · simp [handleMouseDown, fireFirstClick, h]
  · simp [handleMouseDown, fireFirstClick, h]
  · intro htc
    refine ⟨?_, ?_, ?_⟩ <;> simp [handleTouchStart, fireFirstClick, h, htc]
  · intro s' hs' cx' cy' b'
    constructor <;> simp [handleMouseDown, fireFirstClick, hs']
  · intro s' newId
    exact ⟨rfl, rfl⟩

theorem first_click_latch_witness :
    exStateC1.firstClickHasHappened = false ∧
    (handleMouseDown 1 1 0
      { exStateC1 with pendingFirstClickHandlers := [7, 8] }).2 =
      [Out.firstClick 7, Out.firstClick 8] ∧
    (handleMouseDown 1 1 0
      { exStateC1 with pendingFirstClickHandlers := [7, 8] }).1.pendingFirstClickHandlers =
      [] := by
  have h := first_click_latch { exStateC1 with pendingFirstClickHandlers := [7, 8] }
    1 1 0 2 2 rfl
  exact ⟨rfl, h.1, h.2.2.1⟩

/-- A concrete state with the latch unset, one queued first-click handler,
and no active touch. -/
def exStateC7 : MouseState :=
  ⟨false, [7], [], [], [], [], [], ⟨0, 0⟩,
   ⟨⟨0, 0⟩, ⟨0, 0⟩, ⟨false, false, false, false, false⟩⟩, none, none, none, false⟩

/-- C7 counterexample: a touch-start carrying zero touch points is not free
of side effects: when the first-click latch is unset and no touch is active,
it still flips the process-wide latch, invokes the queued first-click
handlers, and clears the queue. -/
theorem zero_touch_not_side_effect_free :
    exStateC7.firstClickHasHappened = false ∧
    (handleTouchStart [] exStateC7).1.firstClickHasHappened = true ∧
    (handleTouchStart [] exStateC7).2 = [Out.firstClick 7] ∧
    (handleTouchStart [] exStateC7).1.pendingFirstClickHandlers = [] := by
  decide

/-- C7 amended: touch events with zero touch points schedule no pending
dispatch and never change `isTouching` or the pending slots; a zero-touch
touch-move or touch-end leaves the state entirely unchanged; a zero-touch
touch-start is also a no-op when already touching or when the latch is
already set, but when not touching it still runs the first-click latch block
(flipping the latch and draining the queue) before noticing that the touch
list is empty. -/
theorem zero_touch_ignored (s : MouseState) :
    handleTouchMove [] s = s ∧
    handleTouchEnd [] s = s ∧
    (handleTouchStart [] s).1.pendingMove = s.pendingMove ∧
    (handleTouchStart [] s).1.pendingDown = s.pendingDown ∧
    (handleTouchStart [] s).1.pendingUp = s.pendingUp ∧
    (handleTouchStart [] s).1.isTouching = s.isTouching ∧
    (s.isTouching = true → handleTouchStart [] s = (s, [])) ∧
    (s.firstClickHasHappened = true → handleTouchStart [] s = (s, [])) ∧
    (s.isTouching = false → s.firstClickHasHappened = false →
      (handleTouchStart [] s).1 =
        { s with firstClickHasHappened := true, pendingFirstClickHandlers := [] } ∧
      (handleTouchStart [] s).2 = s.pendingFirstClickHandlers.map Out.firstClick) := by
  refine ⟨rfl, ?_, ?_, ?_, ?_, ?_, ?_, ?_, ?_⟩
  · show (if s.isTouching then _ else s) = s
    by_cases ht : s.isTouching <;> simp [ht]
  all_goals by_cases ht : s.isTouching <;>
    by_cases hf : s.firstClickHasHappened <;>
    simp [handleTouchStart, fireFirstClick, ht, hf]

theorem zero_touch_ignored_witness :
    handleTouchMove [] exStateC7 = exStateC7 ∧
    (exStateC7.isTouching = false → exStateC7.firstClickHasHappened = false →
      (handleTouchStart [] exStateC7).2 =
        exStateC7.pendingFirstClickHandlers.map Out.firstClick) := by
  have h := zero_touch_ignored exStateC7
  exact ⟨h.1, fun a b => (h.2.2.2.2.2.2.2.2 a b).2⟩

/-- A scale-1, identity-transform configuration whose bounding rect sits at
x = 5 on screen. -/
def exCfgC6 : Config := ⟨5, 0, 1, 1, 1, 1, Mat2D.id2⟩

/-- C6 counterexample: with scale factors 1 and the identity world transform
but a bounding rect whose top-left is (5,0), translating the screen
coordinate (10,0) and applying the entity's forward transform yields (5,0),
not the original screen coordinate. -/
theorem translate_round_trip_cex :
    exCfgC6.rectWidth = exCfgC6.canvasWidth ∧
    exCfgC6.rectHeight = exCfgC6.canvasHeight ∧
    exCfgC6.worldMatrix = Mat2D.id2 ∧
    exCfgC6.worldMatrix.transformPoint (translatePos exCfgC6 10 0) ≠ Vec.mk 10 0 := by
  refine ⟨rfl, rfl, rfl, ?_⟩
  simp only [exCfgC6, translatePos, Mat2D.id2, Mat2D.inverse, Mat2D.det,
    Mat2D.transformPoint, Vec.mk.injEq, not_and]
  norm_num

/-- C6 amended: when the canvas scale factors are 1, the entity's world
transform is the identity, and the bounding rect's top-left offset is (0,0),
translating a screen coordinate and applying the entity's forward transform
yields the original screen coordinate (exactly, over ℚ). -/
theorem translate_round_trip (cfg : Config) (cx cy : ℚ)
    (hW : cfg.rectWidth = cfg.canvasWidth) (hW0 : cfg.canvasWidth ≠ 0)
    (hH : cfg.rectHeight = cfg.canvasHeight) (hH0 : cfg.canvasHeight ≠ 0)
    (hM : cfg.worldMatrix = Mat2D.id2)
    (hL : cfg.rectLeft = 0) (hT : cfg.rectTop = 0) :
    cfg.worldMatrix.transformPoint (translatePos cfg cx cy) = Vec.mk cx cy := by
  have hsx : cfg.rectWidth / cfg.canvasWidth = 1 := by
    rw [hW]
    exact div_self hW0
  have hsy : cfg.rectHeight / cfg.canvasHeight = 1 := by
    rw [hH]
    exact div_self hH0
  simp [translatePos, hsx, hsy, hL, hT, hM, Mat2D.id2, Mat2D.inverse, Mat2D.det,
    Mat2D.transformPoint]

theorem translate_round_trip_witness :
    exCfg.rectWidth = exCfg.canvasWidth ∧ exCfg.canvasWidth ≠ 0 ∧
    exCfg.rectHeight = exCfg.canvasHeight ∧ exCfg.canvasHeight ≠ 0 ∧
    exCfg.worldMatrix = Mat2D.id2 ∧ exCfg.rectLeft = 0 ∧ exCfg.rectTop = 0 ∧
    exCfg.worldMatrix.transformPoint (translatePos exCfg 10 7) = Vec.mk 10 7 :=
  ⟨rfl, by norm_num [exCfg], rfl, by norm_num [exCfg], rfl, rfl, rfl,
   translate_round_trip exCfg 10 7 rfl (by norm_num [exCfg]) rfl (by norm_num [exCfg])
     rfl rfl rfl⟩

lemma and_pow_two_bne (bm i : ℕ) : (bm &&& 2 ^ i != 0) = bm.testBit i := by
  rw [Nat.and_two_pow]
  cases h : bm.testBit i <;> simp [h, Nat.pos_iff_ne_zero, Nat.pow_eq_zero]

/-- C10: each named button flag of the event snapshot equals (bitmask has
that button's bit) OR (single button index equals that button's index), with
index mapping 0=left, 1=middle, 2=right, 3=mouse4, 4=mouse5 and bit mapping
bit0=left, bit1=right, bit2=middle, bit3=mouse4, bit4=mouse5; in particular
bitmask 0b00011 yields left and right true and the rest false. -/
theorem button_decoding (bm : ℕ) (b : Option ℕ) :
    (decodeButtons bm b).left = (bm.testBit 0 || b == some 0) ∧
    (decodeButtons bm b).right = (bm.testBit 1 || b == some 2) ∧
    (decodeButtons bm b).middle = (bm.testBit 2 || b == some 1) ∧
    (decodeButtons bm b).mouse4 = (bm.testBit 3 || b == some 3) ∧
    (decodeButtons bm b).mouse5 = (bm.testBit 4 || b == some 4) ∧
    decodeButtons 3 none = ⟨true, true, false, false, false⟩ := by
  refine ⟨?_, ?_, ?_, ?_, ?_, by decide⟩
  · exact congrArg (fun z => z || (b == some 0)) (and_pow_two_bne bm 0)
  · exact congrArg (fun z => z || (b == some 2)) (and_pow_two_bne bm 1)
  · exact congrArg (fun z => z || (b == some 1)) (and_pow_two_bne bm 2)
  · exact congrArg (fun z => z || (b == some 3)) (and_pow_two_bne bm 3)
  · exact congrArg (fun z => z || (b == some 4)) (and_pow_two_bne bm 4)

lemma Point.magnitude_nonneg (p : Point) : 0 ≤ p.magnitude :=
  Real.sqrt_nonneg _

lemma magnitude_scale (r x y : ℝ) (hr : 0 ≤ r) :
    (Point.mk (r * x) (r * y)).magnitude = r * (Point.mk x y).magnitude := by
  show Real.sqrt _ = r * Real.sqrt _
  have h : (0 - r * x) ^ 2 + (0 - r * y) ^ 2 = r ^ 2 * ((0 - x) ^ 2 + (0 - y) ^ 2) := by
    ring
  rw [h, Real.sqrt_mul (sq_nonneg r), Real.sqrt_sq hr]

lemma angle_scale (r x y : ℝ) (hr : 0 < r) :
    (Point.mk (r * x) (r * y)).angle = (Point.mk x y).angle := by
  show Complex.arg ⟨r * x, -(r * y)⟩ = Complex.arg ⟨x, -y⟩
  have h : (⟨r * x, -(r * y)⟩ : ℂ) = (r : ℂ) * ⟨x, -y⟩ := by
    apply Complex.ext <;> simp
  rw [h, Complex.arg_real_mul _ hr]

/-- C8 counterexample: setting the magnitude of (1,0) to −1 and reading it
back yields 1 (the read accessor is a Euclidean norm, never negative), not
−1. -/
theorem set_magnitude_read_back_cex :
    ((Point.mk 1 0).setMagnitude (-1)).magnitude ≠ -1 := by
  intro h
  have h0 := Point.magnitude_nonneg ((Point.mk 1 0).setMagnitude (-1))
  rw [h] at h0
  norm_num at h0

/-- C8 amended: for every point of nonzero magnitude and every m > 0,
setting the angle to a and reading it back yields a modulo 2π with the
magnitude unchanged, and setting the magnitude to m and reading it back
yields m with the angle unchanged. -/
theorem angle_magnitude_setters (p : Point) (a m : ℝ)
    (hp : p.magnitude ≠ 0) (hm : 0 < m) :
    (((p.setAngle a).angle : ℝ) : Real.Angle) = (a : Real.Angle) ∧
    (p.setAngle a).magnitude = p.magnitude ∧
    (p.setMagnitude m).magnitude = m ∧
    (p.setMagnitude m).angle = p.angle := by
  have hMpos : 0 < p.magnitude := lt_of_le_of_ne (Point.magnitude_nonneg p) (Ne.symm hp)
  have hstruct : p.setMagnitude m =
      Point.mk ((m / p.magnitude) * p.x) ((m / p.magnitude) * p.y) := by
    show Point.mk _ _ = _
    congr 1 <;> show _ / _ * _ = _ <;> ring
  refine ⟨?_, ?_, ?_, ?_⟩
  · have key := Complex.arg_mul_cos_add_sin_mul_I_coe_angle hMpos (a : Real.Angle)
    rw [Real.Angle.cos_coe, Real.Angle.sin_coe] at key
    have h1 : (⟨p.magnitude * Real.cos a, -(-(p.magnitude * Real.sin a))⟩ : ℂ) =
        (p.magnitude : ℂ) * ((Real.cos a : ℂ) + (Real.sin a : ℂ) * Complex.I) := by
      apply Complex.ext <;>
        simp only [Complex.mul_re, Complex.mul_im, Complex.add_re, Complex.add_im,
          Complex.ofReal_re, Complex.ofReal_im, Complex.I_re, Complex.I_im] <;>
        ring
    show ((Complex.arg ⟨p.magnitude * Real.cos a, -(-(p.magnitude * Real.sin a))⟩ : ℝ) :
      Real.Angle) = _
    rw [h1]
    exact key
  · have h2 : p.setAngle a = Point.mk (p.magnitude * Real.cos a)
        (p.magnitude * -Real.sin a) := by
      show Point.mk _ _ = _
      congr 1
      ring
    rw [h2, magnitude_scale _ _ _ (Point.magnitude_nonneg p)]
    have h3 : (Point.mk (Real.cos a) (-Real.sin a)).magnitude = 1 := by
      show Real.sqrt _ = 1
      have h4 : (0 - Real.cos a) ^ 2 + (0 - -Real.sin a) ^ 2 = 1 := by
        have h5 := Real.sin_sq_add_cos_sq a
        calc (0 - Real.cos a) ^ 2 + (0 - -Real.sin a) ^ 2
            = Real.sin a ^ 2 + Real.cos a ^ 2 := by ring
          _ = 1 := h5
      rw [h4, Real.sqrt_one]
    rw [h3, mul_one]
  · rw [hstruct, magnitude_scale _ _ _ (le_of_lt (div_pos hm hMpos))]
    exact div_mul_cancel₀ m hp
  · rw [hstruct, angle_scale _ _ _ (div_pos hm hMpos)]

lemma ex_mag_one : (Point.mk 1 0).magnitude = 1 := by
  show Real.sqrt _ = 1
  norm_num

theorem angle_magnitude_setters_witness :
    (Point.mk 1 0).magnitude ≠ 0 ∧ (0 : ℝ) < 2 ∧
    ((Point.mk 1 0).setMagnitude 2).magnitude = 2 ∧
    ((Point.mk 1 0).setAngle 0).magnitude = (Point.mk 1 0).magnitude := by
  have hp : (Point.mk 1 0).magnitude ≠ 0 := by
    rw [ex_mag_one]
    norm_num
  have h := angle_magnitude_setters (Point.mk 1 0) 0 2 hp (by norm_num)
  exact ⟨hp, by norm_num, h.2.2.1, h.2.1⟩

/-- C9: a point of nonzero magnitude normalizes to a point of magnitude 1
with the angle unchanged; a point of magnitude 0 normalizes, in JavaScript
arithmetic, to NaN components (0/0) rather than raising an error. -/
theorem normalize_unit_or_nan :
    (∀ p : Point, p.magnitude ≠ 0 →
      p.normalize.magnitude = 1 ∧ p.normalize.angle = p.angle) ∧
    (∀ q : JsPoint, q.magnitude = JsFloat.num 0 →
      q.normalize = ⟨JsFloat.nan, JsFloat.nan⟩) := by
  constructor
  · intro p hp
    have hMpos : 0 < p.magnitude := lt_of_le_of_ne (Point.magnitude_nonneg p) (Ne.symm hp)
    have hstruct : p.normalize =
        Point.mk ((1 / p.magnitude) * p.x) ((1 / p.magnitude) * p.y) := by
      show Point.mk _ _ = _
      congr 1 <;> ring
    constructor
    · rw [hstruct, magnitude_scale _ _ _ (le_of_lt (one_div_pos.mpr hMpos))]
      rw [one_div, inv_mul_cancel₀ hp]
    · rw [hstruct, angle_scale _ _ _ (one_div_pos.mpr hMpos)]
  · intro q hq
    obtain ⟨x, y⟩ := q
    cases x <;> cases y <;>
      simp only [JsPoint.magnitude, jsSub, jsSq, jsAdd, jsSqrt] at hq <;>
      try exact (JsFloat.noConfusion hq)
    case num.num a b =>
      rw [if_neg (not_lt.mpr (by positivity))] at hq
      have hs : Real.sqrt ((0 - a) ^ 2 + (0 - b) ^ 2) = 0 := by
        injection hq
      have hsum : (0 - a) ^ 2 + (0 - b) ^ 2 = 0 :=
        (Real.sqrt_eq_zero (by positivity)).mp hs
      have ha : a = 0 := by nlinarith [sq_nonneg (0 - a), sq_nonneg (0 - b)]
      have hb : b = 0 := by nlinarith [sq_nonneg (0 - a), sq_nonneg (0 - b)]
      subst ha
      subst hb
      show JsPoint.mk
        (jsDiv (JsFloat.num 0) (JsPoint.magnitude ⟨JsFloat.num 0, JsFloat.num 0⟩))
        (jsDiv (JsFloat.num 0) (JsPoint.magnitude ⟨JsFloat.num 0, JsFloat.num 0⟩)) = _
      have hmag : JsPoint.magnitude ⟨JsFloat.num 0, JsFloat.num 0⟩ = JsFloat.num 0 := by
        simp only [JsPoint.magnitude, jsSub, jsSq, jsAdd, jsSqrt]
        rw [if_neg (by norm_num)]
        norm_num
      rw [hmag]
      simp [jsDiv]

theorem normalize_unit_or_nan_witness :
    (Point.mk 1 0).magnitude ≠ 0 ∧
    (Point.mk 1 0).normalize.magnitude = 1 ∧
    JsPoint.magnitude ⟨JsFloat.num 0, JsFloat.num 0⟩ = JsFloat.num 0 ∧
    JsPoint.normalize ⟨JsFloat.num 0, JsFloat.num 0⟩ = ⟨JsFloat.nan, JsFloat.nan⟩ := by
  have hp : (Point.mk 1 0).magnitude ≠ 0 := by
    rw [ex_mag_one]
    norm_num
  have hmag : JsPoint.magnitude ⟨JsFloat.num 0, JsFloat.num 0⟩ = JsFloat.num 0 := by
    simp only [JsPoint.magnitude, jsSub, jsSq, jsAdd, jsSqrt]
    rw [if_neg (by norm_num)]
    norm_num
  exact ⟨hp, (normalize_unit_or_nan.1 (Point.mk 1 0) hp).1, hmag,
    normalize_unit_or_nan.2 _ hmag⟩

theorem button_decoding_witness :
    (decodeButtons 3 none).left = ((3 : ℕ).testBit 0 || none == some 0) ∧
    decodeButtons 3 none = ⟨true, true, false, false, false⟩ :=
  ⟨(button_decoding 3 none).1, (button_decoding 3 none).2.2.2.2.2⟩
